import Mathlib

/-!
Shallow embedding of the schedule-management core of
`src/app/services/schedule.service.ts` (ScheduleService).

Modelling choices:
* JS objects used as string-keyed dictionaries (the weekly grid) are modelled
  as ordered association lists, which preserves the insertion order of string
  keys exactly as JS objects do.
* JS objects keyed by numeric ids (the `teacherHours` / `classHours` maps of
  `getScheduleStatistics`) are modelled as ordered association lists over
  `Nat` keys; `Object.values` on such an object enumerates the integer-like
  keys in ascending numeric order (ECMA-262 OrdinaryOwnPropertyKeys), which is
  modelled by sorting the association list by key before projecting values.
  Ids are modelled as `Nat` (the data model only uses non-negative ids).
* JS `number` arithmetic on durations is modelled exactly over `ℚ`; the `NaN`
  produced by `new Date(...)` on an unparseable time string is modelled by
  `Option ℚ` with `none` for `NaN` (`none` is absorbing under addition, as
  `NaN` is).
* TS payloads with optional fields (`UpdateScheduleRequest`) are modelled with
  `Option` fields: `none` means the key is absent (`'k' in data` is false).
-/

/-- A time slot of the static catalog (`TimeSlot` interface in the source). -/
structure TimeSlot where
  start_time : String
  end_time : String
  label : String
deriving DecidableEq

/-- One entry of the weekday catalog (the inline `{value, label}` objects). -/
structure DayEntry where
  value : String
  label : String
deriving DecidableEq

/-- The static catalog `TIME_SLOTS` of `ScheduleService`. -/
def TIME_SLOTS : List TimeSlot :=
  [ { start_time := "08:00", end_time := "10:00", label := "08h00 - 10h00" },
    { start_time := "10:15", end_time := "12:15", label := "10h15 - 12h15" },
    { start_time := "14:00", end_time := "16:00", label := "14h00 - 16h00" },
    { start_time := "16:15", end_time := "18:15", label := "16h15 - 18h15" } ]

/-- The static catalog `DAYS_OF_WEEK` of `ScheduleService`. -/
def DAYS_OF_WEEK : List DayEntry :=
  [ { value := "MONDAY", label := "Lundi" },
    { value := "TUESDAY", label := "Mardi" },
    { value := "WEDNESDAY", label := "Mercredi" },
    { value := "THURSDAY", label := "Jeudi" },
    { value := "FRIDAY", label := "Vendredi" },
    { value := "SATURDAY", label := "Samedi" } ]

/-- The `Schedule` interface (a fetched schedule record). -/
structure Schedule where
  id : Nat
  class_id : Nat
  class_name : String
  teacher_id : Nat
  teacher_name : String
  subject_id : Nat
  subject_name : String
  day_of_week : String
  start_time : String
  end_time : String
  academic_year : String
  semester : String
  created_at : Option String := none
  updated_at : Option String := none
deriving DecidableEq

/-- The weekly grid: day value ↦ (slot start time ↦ cell).  A JS object of
objects, modelled as an ordered association list of ordered association
lists.  A cell is `none` (JS `null`) or one record. -/
abbrev Grid := List (String × List (String × Option Schedule))

/-- Association-list lookup by string key (JS property read: `some v` when the
key is present with value `v`, `none` when the read yields `undefined`). -/
def alookup {β : Type} : List (String × β) → String → Option β
  | [], _ => none
  | e :: t, k => if e.1 = k then some e.2 else alookup t k

/-- Reading `grid[d][s]`: `none` models `undefined` (missing key at either
level), `some none` models a cell holding `null`, `some (some r)` a cell
holding record `r`. -/
def lookupCell (g : Grid) (d s : String) : Option (Option Schedule) :=
  (alookup g d).bind fun row => alookup row s

/-- The grid produced by the initialization loop of `formatWeeklyGrid`:
every catalog day, every catalog slot start, all cells `null`. -/
def initGrid : Grid :=
  DAYS_OF_WEEK.map fun day =>
    (day.value, TIME_SLOTS.map fun slot => (slot.start_time, (none : Option Schedule)))

/-- One iteration of the population loop of `formatWeeklyGrid`:
`if (grid[s.day_of_week] && grid[s.day_of_week][s.start_time] !== undefined)
 grid[s.day_of_week][s.start_time] = s`.  Since assignment is guarded by the
presence of both keys, it only rewrites an existing cell, which the
key-preserving map expresses. -/
def setCell (g : Grid) (s : Schedule) : Grid :=
  g.map fun e =>
    (e.1,
     if e.1 = s.day_of_week then
       e.2.map fun c => (c.1, if c.1 = s.start_time then some s else c.2)
     else e.2)

/-- The function `formatWeeklyGrid` of `ScheduleService`. -/
def formatWeeklyGrid (schedules : List Schedule) : Grid :=
  schedules.foldl setCell initGrid

/-- The `CreateScheduleRequest | UpdateScheduleRequest` argument of
`validateScheduleData`; every field independently present (`some`) or absent
(`none`), mirroring the `'field' in scheduleData` presence checks. -/
structure UpdateScheduleRequest where
  class_id : Option Int := none
  teacher_id : Option Int := none
  subject_id : Option Int := none
  day_of_week : Option String := none
  start_time : Option String := none
  end_time : Option String := none
  academic_year : Option String := none
  semester : Option String := none
deriving DecidableEq

/-- The `{isValid, errors}` result of `validateScheduleData`. -/
structure ValidationResult where
  isValid : Bool
  errors : List String
deriving DecidableEq

/-- Lexicographic order on code points, one step. -/
def charListLt : List Char → List Char → Bool
  | _, [] => false
  | [], _ :: _ => true
  | a :: s, b :: t =>
    if a.toNat < b.toNat then true
    else if b.toNat < a.toNat then false
    else charListLt s t

/-- The JS relational comparison `s < t` on strings: lexicographic on code
units (identical to code-point order for the BMP strings handled here). -/
def jsStrLt (s t : String) : Bool := charListLt s.toList t.toList

/-- The pattern `^\d{4}-\d{4}$` from the academic-year rule (without the `u` flag, `\d`
is exactly `[0-9]`). -/
def matchesYearPattern (y : String) : Bool :=
  match y.toList with
  | [a, b, c, d, dash, e, f, g, h] =>
    a.isDigit && b.isDigit && c.isDigit && d.isDigit && dash = '-' &&
      e.isDigit && f.isDigit && g.isDigit && h.isDigit
  | _ => false

/-- The function `validateScheduleData` of `ScheduleService`.  Each rule's conditional
`errors.push(msg)` is translated as the concatenation, in rule-declaration
order, of that rule's contribution (`[msg]` when the rule fires, `[]`
otherwise).  JS truthiness: `!id` on a modelled integer is `id = 0`; a
string is falsy exactly when it is empty; `s >= e` on strings is `¬ s < e`. -/
def validateScheduleData (p : UpdateScheduleRequest) : ValidationResult :=
  let e1 : List String :=
    match p.class_id with
    | some v => if v = 0 ∨ v ≤ 0 then ["La classe est obligatoire"] else []
    | none => []
  let e2 : List String :=
    match p.teacher_id with
    | some v => if v = 0 ∨ v ≤ 0 then ["L\x27enseignant est obligatoire"] else []
    | none => []
  let e3 : List String :=
    match p.subject_id with
    | some v => if v = 0 ∨ v ≤ 0 then ["La matière est obligatoire"] else []
    | none => []
  let e4 : List String :=
    match p.day_of_week with
    | some d =>
      if (DAYS_OF_WEEK.find? fun x => x.value == d) = none then
        ["Jour de la semaine invalide"]
      else []
    | none => []
  let e5 : List String :=
    match p.start_time, p.end_time with
    | some s, some e =>
      if s ≠ "" ∧ e ≠ "" then
        if jsStrLt s e then [] else ["L\x27heure de fin doit être après l\x27heure de début"]
      else []
    | _, _ => []
  let e6 : List String :=
    match p.academic_year with
    | some y =>
      if y ≠ "" then
        if matchesYearPattern y then [] else ["Format d\x27année académique invalide (YYYY-YYYY)"]
      else []
    | none => []
  let e7 : List String :=
    match p.semester with
    | some s =>
      if s ≠ "" then
        if s ∈ (["S1", "S2"] : List String) then [] else ["Semestre invalide (S1 ou S2)"]
      else []
    | none => []
  let errors := e1 ++ e2 ++ e3 ++ e4 ++ e5 ++ e6 ++ e7
  { isValid := errors.isEmpty, errors := errors }

/-- Parse an `HH:MM` string the way `new Date("2000-01-01T" + t + ":00")`
does: exactly two digits, a colon, two digits; hours `00`–`23` (or the ISO
special case `24:00`); minutes `00`–`59`.  Returns minutes since midnight,
`none` when the `Date` would be invalid (i.e. `getTime()` is `NaN`). -/
def hhmmToMinutes (t : String) : Option Nat :=
  match t.toList with
  | [h1, h2, c, m1, m2] =>
    if h1.isDigit ∧ h2.isDigit ∧ c = ':' ∧ m1.isDigit ∧ m2.isDigit then
      let h := 10 * (h1.toNat - 48) + (h2.toNat - 48)
      let m := 10 * (m1.toNat - 48) + (m2.toNat - 48)
      if (h ≤ 23 ∧ m ≤ 59) ∨ (h = 24 ∧ m = 0) then some (60 * h + m) else none
    else none
  | _ => none

/-- The function `calculateDuration` of `ScheduleService`:
`(end.getTime() - start.getTime()) / (1000 * 60 * 60)`.  Both `Date`s sit on
the same fixed day, so the millisecond difference is the minute difference
times 60000, and the result is `(endMinutes - startMinutes) / 60` hours;
`none` models the `NaN` produced when either time string does not parse. -/
def calculateDuration (startTime endTime : String) : Option ℚ :=
  match hhmmToMinutes startTime, hhmmToMinutes endTime with
  | some a, some b => some (((b : ℚ) - (a : ℚ)) / 60)
  | _, _ => none

/-- One entry of the `teacherHours` / `classHours` maps and of the output
workload lists: a display name and accumulated hours (`none` models `NaN`). -/
structure WorkloadEntry where
  name : String
  hours : Option ℚ
deriving DecidableEq

/-- JS `number` addition with `NaN` (`none`) absorbing. -/
def qAdd : Option ℚ → Option ℚ → Option ℚ
  | some a, some b => some (a + b)
  | _, _ => none

/-- The duration credited to one schedule record by the aggregation loop. -/
def durationOf (s : Schedule) : Option ℚ :=
  calculateDuration s.start_time s.end_time

/-- One iteration of the aggregation loop of `getScheduleStatistics` on one
of the two maps:
`if (!hoursMap[id]) hoursMap[id] = {name, hours: 0}; hoursMap[id].hours += duration`.
Generic in the key (`teacher_id` or `class_id`) and name (`teacher_name` or
`class_name`) projections. -/
def updEntry (key : Schedule → Nat) (nameOf : Schedule → String)
    (m : List (Nat × WorkloadEntry)) (s : Schedule) : List (Nat × WorkloadEntry) :=
  let m1 := if key s ∈ m.map Prod.fst then m else m ++ [(key s, ⟨nameOf s, some 0⟩)]
  m1.map fun e =>
    if e.1 = key s then (e.1, ⟨e.2.name, qAdd e.2.hours (durationOf s)⟩) else e

/-- The enumeration `Object.values` on a JS object whose keys are array-index-like integers:
keys enumerate in ascending numeric order (not insertion order). -/
def objectValues (m : List (Nat × WorkloadEntry)) : List WorkloadEntry :=
  (List.insertionSort (fun a b => a.1 ≤ b.1) m).map Prod.snd

/-- The statistics object produced by `getScheduleStatistics`. -/
structure ScheduleStatistics where
  total_schedules : Nat
  schedules_by_day : List (String × Nat)
  teacher_workload : List WorkloadEntry
  class_coverage : List WorkloadEntry
deriving DecidableEq

/-- The pure aggregation inside `getScheduleStatistics` (the `map` lambda
applied to the fetched schedule list; the HTTP fetch is outside the core).
The single loop updates the two independent maps in lockstep, modelled as a
fold over the pair of maps. -/
def getScheduleStatistics (schedules : List Schedule) : ScheduleStatistics :=
  let maps := schedules.foldl
    (fun acc s =>
      (updEntry (fun r => r.teacher_id) (fun r => r.teacher_name) acc.1 s,
       updEntry (fun r => r.class_id) (fun r => r.class_name) acc.2 s))
    ([], [])
  { total_schedules := schedules.length
    schedules_by_day :=
      DAYS_OF_WEEK.map fun day =>
        (day.value, (schedules.filter fun s => s.day_of_week == day.value).length)
    teacher_workload := objectValues maps.1
    class_coverage := objectValues maps.2 }

/-! ## Specification-side vocabulary

Functions formalising the spec's description of the aggregator, used to
state the claims about `getScheduleStatistics`. -/

/-- The distinct keys of the input, in first-appearance order. -/
def distinctKeys (key : Schedule → Nat) (l : List Schedule) : List Nat :=
  l.foldl (fun acc s => if key s ∈ acc then acc else acc ++ [key s]) []

/-- The display name of the first record encountered for a given key. -/
def firstNameFor (key : Schedule → Nat) (nameOf : Schedule → String)
    (l : List Schedule) (id : Nat) : String :=
  ((l.find? fun s => key s == id).map nameOf).getD ""

/-- The accumulated hours of all records with a given key: the durations
summed onto the initial `0` (with `none` for `NaN` absorbing, as in JS). -/
def hoursFor (key : Schedule → Nat) (l : List Schedule) (id : Nat) : Option ℚ :=
  (l.filter fun s => key s == id).foldl (fun a s => qAdd a (durationOf s)) (some 0)

/-- The keyed workload entry the spec describes for a given id. -/
def entryFor (key : Schedule → Nat) (nameOf : Schedule → String)
    (l : List Schedule) (id : Nat) : Nat × WorkloadEntry :=
  (id, ⟨firstNameFor key nameOf l id, hoursFor key l id⟩)

/-- The whole keyed map the spec describes, in first-appearance order. -/
def specMap (key : Schedule → Nat) (nameOf : Schedule → String)
    (l : List Schedule) : List (Nat × WorkloadEntry) :=
  (distinctKeys key l).map (entryFor key nameOf l)

/-! ## Specification-side validator vocabulary

One boolean per validation rule, in rule-declaration order, each evaluated
independently of the others. -/

/-- Rule 1: present class reference that is falsy or non-positive. -/
def classIdViolated (p : UpdateScheduleRequest) : Bool :=
  match p.class_id with
  | some v => if v = 0 ∨ v ≤ 0 then true else false
  | none => false

/-- Rule 2: present teacher reference that is falsy or non-positive. -/
def teacherIdViolated (p : UpdateScheduleRequest) : Bool :=
  match p.teacher_id with
  | some v => if v = 0 ∨ v ≤ 0 then true else false
  | none => false

/-- Rule 3: present subject reference that is falsy or non-positive. -/
def subjectIdViolated (p : UpdateScheduleRequest) : Bool :=
  match p.subject_id with
  | some v => if v = 0 ∨ v ≤ 0 then true else false
  | none => false

/-- Rule 4: present day that is not in the weekday catalog. -/
def dayOfWeekViolated (p : UpdateScheduleRequest) : Bool :=
  match p.day_of_week with
  | some d => if (DAYS_OF_WEEK.find? fun x => x.value == d) = none then true else false
  | none => false

/-- Rule 5: both times present, both truthy, start not strictly before end. -/
def timeOrderViolated (p : UpdateScheduleRequest) : Bool :=
  match p.start_time, p.end_time with
  | some s, some e => if (s ≠ "" ∧ e ≠ "") ∧ jsStrLt s e = false then true else false
  | _, _ => false

/-- Rule 6: present truthy academic year not matching `^\d{4}-\d{4}$`. -/
def academicYearViolated (p : UpdateScheduleRequest) : Bool :=
  match p.academic_year with
  | some y => if y ≠ "" ∧ matchesYearPattern y = false then true else false
  | none => false

/-- Rule 7: present truthy semester other than `S1` / `S2`. -/
def semesterViolated (p : UpdateScheduleRequest) : Bool :=
  match p.semester with
  | some s => if s ≠ "" ∧ s ∉ (["S1", "S2"] : List String) then true else false
  | none => false

/-- The seven validation rules with their messages, in declaration order. -/
def ruleTable (p : UpdateScheduleRequest) : List (Bool × String) :=
  [ (classIdViolated p, "La classe est obligatoire"),
    (teacherIdViolated p, "L\x27enseignant est obligatoire"),
    (subjectIdViolated p, "La matière est obligatoire"),
    (dayOfWeekViolated p, "Jour de la semaine invalide"),
    (timeOrderViolated p, "L\x27heure de fin doit être après l\x27heure de début"),
    (academicYearViolated p, "Format d\x27année académique invalide (YYYY-YYYY)"),
    (semesterViolated p, "Semestre invalide (S1 ou S2)") ]

/-- The error list the spec describes: one message per violated rule, in
rule-declaration order. -/
def ruleErrors (p : UpdateScheduleRequest) : List String :=
  (ruleTable p).filterMap fun bm => if bm.1 then some bm.2 else none

/-! ## Concrete inputs used by the witnesses and the counterexample -/

/-- A schedule record for teacher 7 "Dupont", Monday 08:00–10:00 (2.0 h). -/
def recDupontMon : Schedule :=
  { id := 1, class_id := 3, class_name := "6A", teacher_id := 7,
    teacher_name := "Dupont", subject_id := 2, subject_name := "Mathématiques",
    day_of_week := "MONDAY", start_time := "08:00", end_time := "10:00",
    academic_year := "2024-2025", semester := "S1" }

/-- A second record for teacher 7 "Dupont", Tuesday 10:15–11:15 (1.0 h). -/
def recDupontTue : Schedule :=
  { recDupontMon with
    id := 2
    class_id := 4
    class_name := "6B"
    day_of_week := "TUESDAY"
    start_time := "10:15"
    end_time := "11:15" }

/-- A second record occupying the same Monday 08:00 cell as `recDupontMon`. -/
def recMondayBis : Schedule :=
  { recDupontMon with
    id := 3
    teacher_id := 8
    teacher_name := "Martin"
    subject_id := 5
    subject_name := "Histoire" }

/-- A record whose teacher id 9 appears first in the input. -/
def recTeacherNine : Schedule :=
  { recDupontMon with
    id := 11
    teacher_id := 9
    teacher_name := "Neuf"
    class_id := 9
    class_name := "Neuvième" }

/-- A record whose teacher id 2 appears second in the input. -/
def recTeacherTwo : Schedule :=
  { recDupontMon with
    id := 12
    teacher_id := 2
    teacher_name := "Deux"
    class_id := 2
    class_name := "Deuxième"
    day_of_week := "TUESDAY" }

/-- Splitting one rule off the error-collection table. -/
theorem filterMap_rule_cons (b : Bool) (m : String) (t : List (Bool × String)) :
    ((b, m) :: t).filterMap (fun bm => if bm.1 then some bm.2 else none) =
      (if b then [m] else []) ++ t.filterMap (fun bm => if bm.1 then some bm.2 else none) := by
  cases b <;> simp [List.filterMap_cons]

/-- The list `ruleErrors` is the concatenation of the seven rules' contributions. -/
theorem ruleErrors_eq_append (p : UpdateScheduleRequest) :
    ruleErrors p =
      (if classIdViolated p then ["La classe est obligatoire"] else []) ++
      (if teacherIdViolated p then ["L\x27enseignant est obligatoire"] else []) ++
      (if subjectIdViolated p then ["La matière est obligatoire"] else []) ++
      (if dayOfWeekViolated p then ["Jour de la semaine invalide"] else []) ++
      (if timeOrderViolated p then ["L\x27heure de fin doit être après l\x27heure de début"] else []) ++
      (if academicYearViolated p then ["Format d\x27année académique invalide (YYYY-YYYY)"] else []) ++
      (if semesterViolated p then ["Semestre invalide (S1 ou S2)"] else []) := by
  simp [ruleErrors, ruleTable, filterMap_rule_cons, List.append_assoc]

/-- The class-reference contribution in terms of its rule boolean. -/
theorem contribClass (p : UpdateScheduleRequest) :
    (match p.class_id with
      | some v => if v = 0 ∨ v ≤ 0 then ["La classe est obligatoire"] else []
      | none => []) =
      (if classIdViolated p then ["La classe est obligatoire"] else []) := by
  rcases hp : p.class_id with _ | v
  · simp [classIdViolated, hp]
  · by_cases hv : (v = 0 ∨ v ≤ 0) <;> simp [classIdViolated, hp, hv]

/-- The teacher-reference contribution in terms of its rule boolean. -/
theorem contribTeacher (p : UpdateScheduleRequest) :
    (match p.teacher_id with
      | some v => if v = 0 ∨ v ≤ 0 then ["L\x27enseignant est obligatoire"] else []
      | none => []) =
      (if teacherIdViolated p then ["L\x27enseignant est obligatoire"] else []) := by
  rcases hp : p.teacher_id with _ | v
  · simp [teacherIdViolated, hp]
  · by_cases hv : (v = 0 ∨ v ≤ 0) <;> simp [teacherIdViolated, hp, hv]

/-- The subject-reference contribution in terms of its rule boolean. -/
theorem contribSubject (p : UpdateScheduleRequest) :
    (match p.subject_id with
      | some v => if v = 0 ∨ v ≤ 0 then ["La matière est obligatoire"] else []
      | none => []) =
      (if subjectIdViolated p then ["La matière est obligatoire"] else []) := by
  rcases hp : p.subject_id with _ | v
  · simp [subjectIdViolated, hp]
  · by_cases hv : (v = 0 ∨ v ≤ 0) <;> simp [subjectIdViolated, hp, hv]

/-- The weekday contribution in terms of its rule boolean. -/
theorem contribDay (p : UpdateScheduleRequest) :
    (match p.day_of_week with
      | some d =>
        if (DAYS_OF_WEEK.find? fun x => x.value == d) = none then
          ["Jour de la semaine invalide"]
        else []
      | none => []) =
      (if dayOfWeekViolated p then ["Jour de la semaine invalide"] else []) := by
  rcases hp : p.day_of_week with _ | d
  · simp [dayOfWeekViolated, hp]
  · by_cases hd : (DAYS_OF_WEEK.find? fun x => x.value == d) = none <;>
      simp [dayOfWeekViolated, hp, hd]

/-- The time-ordering contribution in terms of its rule boolean. -/
theorem contribTime (p : UpdateScheduleRequest) :
    (match p.start_time, p.end_time with
      | some s, some e =>
        if s ≠ "" ∧ e ≠ "" then
          if jsStrLt s e then [] else ["L\x27heure de fin doit être après l\x27heure de début"]
        else []
      | _, _ => []) =
      (if timeOrderViolated p then ["L\x27heure de fin doit être après l\x27heure de début"] else []) := by
  rcases hs : p.start_time with _ | s <;> rcases he : p.end_time with _ | e <;>
    simp [timeOrderViolated, hs, he]
  by_cases hne : (s ≠ "" ∧ e ≠ "")
  · cases hlt : jsStrLt s e <;> simp [hne, hlt]
  · simp [hne]

/-- The academic-year contribution in terms of its rule boolean. -/
theorem contribYear (p : UpdateScheduleRequest) :
    (match p.academic_year with
      | some y =>
        if y ≠ "" then
          if matchesYearPattern y then [] else ["Format d\x27année académique invalide (YYYY-YYYY)"]
        else []
      | none => []) =
      (if academicYearViolated p then ["Format d\x27année académique invalide (YYYY-YYYY)"] else []) := by
  rcases hp : p.academic_year with _ | y
  · simp [academicYearViolated, hp]
  · by_cases hy : y = ""
    · simp [academicYearViolated, hp, hy]
    · cases hm : matchesYearPattern y <;> simp [academicYearViolated, hp, hy, hm]

/-- The semester contribution in terms of its rule boolean. -/
theorem contribSemester (p : UpdateScheduleRequest) :
    (match p.semester with
      | some s =>
        if s ≠ "" then
          if s ∈ (["S1", "S2"] : List String) then [] else ["Semestre invalide (S1 ou S2)"]
        else []
      | none => []) =
      (if semesterViolated p then ["Semestre invalide (S1 ou S2)"] else []) := by
  rcases hp : p.semester with _ | s
  · simp [semesterViolated, hp]
  · by_cases hy : s = ""
    · simp [semesterViolated, hp, hy]
    · by_cases hm : s ∈ (["S1", "S2"] : List String) <;> simp [semesterViolated, hp, hy, hm]

/-- The validator's error list is exactly the rule table's error list. -/
theorem validate_errors_eq (p : UpdateScheduleRequest) :
    (validateScheduleData p).errors = ruleErrors p := by
  show _ = ruleErrors p
  simp only [validateScheduleData]
  rw [contribClass, contribTeacher, contribSubject, contribDay, contribTime, contribYear,
    contribSemester, ruleErrors_eq_append]

/-- The validity flag is the emptiness of the error list. -/
theorem validate_isValid_eq (p : UpdateScheduleRequest) :
    (validateScheduleData p).isValid = (validateScheduleData p).errors.isEmpty := rfl

/-- Membership in a conditional singleton. -/
theorem mem_if_singleton (a x : String) (b : Bool) :
    (a ∈ (if b then [x] else [])) ↔ b = true ∧ a = x := by
  cases b <;> simp

/-- The class message appears exactly when the class rule fires. -/
theorem mem_errors_class (p : UpdateScheduleRequest) :
    "La classe est obligatoire" ∈ (validateScheduleData p).errors ↔
      classIdViolated p = true := by
  rw [validate_errors_eq, ruleErrors_eq_append]
  simp [List.mem_append, mem_if_singleton]

/-- The teacher message appears exactly when the teacher rule fires. -/
theorem mem_errors_teacher (p : UpdateScheduleRequest) :
    "L\x27enseignant est obligatoire" ∈ (validateScheduleData p).errors ↔
      teacherIdViolated p = true := by
  rw [validate_errors_eq, ruleErrors_eq_append]
  simp [List.mem_append, mem_if_singleton]

/-- The subject message appears exactly when the subject rule fires. -/
theorem mem_errors_subject (p : UpdateScheduleRequest) :
    "La matière est obligatoire" ∈ (validateScheduleData p).errors ↔
      subjectIdViolated p = true := by
  rw [validate_errors_eq, ruleErrors_eq_append]
  simp [List.mem_append, mem_if_singleton]

/-- The time-ordering message appears exactly when the time rule fires. -/
theorem mem_errors_time (p : UpdateScheduleRequest) :
    "L\x27heure de fin doit être après l\x27heure de début" ∈ (validateScheduleData p).errors ↔
      timeOrderViolated p = true := by
  rw [validate_errors_eq, ruleErrors_eq_append]
  simp [List.mem_append, mem_if_singleton]

/-- A parseable `HH:MM` string is nonempty (truthy in JS). -/
theorem hhmm_isSome_ne_empty {t : String} (h : (hhmmToMinutes t).isSome) : t ≠ "" := by
  intro he
  rw [he] at h
  exact absurd h (by decide)

/-- C10: the empty payload (no fields present) validates with no errors. -/
theorem claim_C10_empty_payload_valid :
    validateScheduleData {} = { isValid := true, errors := [] } := rfl

/-- C6: the validator evaluates all seven rules independently, collecting
one message per violated rule in rule-declaration order, and `isValid` holds
exactly when the error list is empty. -/
theorem claim_C6_all_rules_collected (p : UpdateScheduleRequest) :
    (validateScheduleData p).errors = ruleErrors p ∧
      ((validateScheduleData p).isValid = true ↔ (validateScheduleData p).errors = []) := by
  refine ⟨validate_errors_eq p, ?_⟩
  rw [validate_isValid_eq p]
  cases h : (validateScheduleData p).errors <;> simp [h]

/-- C7: with both time fields present and parseable `HH:MM` values, the
time-ordering error is reported exactly when the start does not sort
strictly before the end in string order. -/
theorem claim_C7_time_ordering (p : UpdateScheduleRequest) (s e : String)
    (hs : p.start_time = some s) (he : p.end_time = some e)
    (hvs : (hhmmToMinutes s).isSome) (hve : (hhmmToMinutes e).isSome) :
    "L\x27heure de fin doit être après l\x27heure de début" ∈ (validateScheduleData p).errors ↔
      jsStrLt s e = false := by
  rw [mem_errors_time]
  have h1 := hhmm_isSome_ne_empty hvs
  have h2 := hhmm_isSome_ne_empty hve
  cases hlt : jsStrLt s e <;> simp [timeOrderViolated, hs, he, h1, h2, hlt]

/-- C7 witness at the spec's concrete examples. -/
theorem claim_C7_time_ordering_witness :
    ("L\x27heure de fin doit être après l\x27heure de début" ∈
        (validateScheduleData { start_time := some "10:00", end_time := some "09:00" }).errors) ∧
      ("L\x27heure de fin doit être après l\x27heure de début" ∉
        (validateScheduleData { start_time := some "09:00", end_time := some "10:00" }).errors) ∧
      (validateScheduleData { start_time := some "10:00", end_time := some "09:00" }).isValid
        = false := by
  refine ⟨?_, ?_, rfl⟩
  · exact (claim_C7_time_ordering _ "10:00" "09:00" rfl rfl (by decide) (by decide)).mpr
      (by decide)
  · intro h
    exact absurd ((claim_C7_time_ordering _ "09:00" "10:00" rfl rfl (by decide) (by decide)).mp h)
      (by decide)

/-- C8: whenever a class / teacher / subject reference is present, its
required-field error is reported exactly when the value is not positive. -/
theorem claim_C8_reference_positivity (p : UpdateScheduleRequest) :
    (∀ v : Int, p.class_id = some v →
      ("La classe est obligatoire" ∈ (validateScheduleData p).errors ↔ ¬ 0 < v)) ∧
    (∀ v : Int, p.teacher_id = some v →
      ("L\x27enseignant est obligatoire" ∈ (validateScheduleData p).errors ↔ ¬ 0 < v)) ∧
    (∀ v : Int, p.subject_id = some v →
      ("La matière est obligatoire" ∈ (validateScheduleData p).errors ↔ ¬ 0 < v)) := by
  refine ⟨fun v hv => ?_, fun v hv => ?_, fun v hv => ?_⟩
  · rw [mem_errors_class]
    by_cases h : (v = 0 ∨ v ≤ 0) <;> simp [classIdViolated, hv, h] <;> omega
  · rw [mem_errors_teacher]
    by_cases h : (v = 0 ∨ v ≤ 0) <;> simp [teacherIdViolated, hv, h] <;> omega
  · rw [mem_errors_subject]
    by_cases h : (v = 0 ∨ v ≤ 0) <;> simp [subjectIdViolated, hv, h] <;> omega

/-- C8 witness at the spec's concrete examples. -/
theorem claim_C8_reference_positivity_witness :
    ("La classe est obligatoire" ∈ (validateScheduleData { class_id := some 0 }).errors) ∧
      ("La classe est obligatoire" ∉ (validateScheduleData { class_id := some 5 }).errors) ∧
      (validateScheduleData { class_id := some 0 }).isValid = false := by
  refine ⟨?_, ?_, rfl⟩
  · exact ((claim_C8_reference_positivity _).1 0 rfl).mpr (by norm_num)
  · intro h
    exact absurd (((claim_C8_reference_positivity _).1 5 rfl).mp h) (by norm_num)

/-- C9: on parseable `HH:MM` inputs with the start strictly before the end,
`calculateDuration` returns exactly the end time minus the start time,
expressed in hours as an exact rational. -/
theorem claim_C9_duration_exact (s e : String) (a b : Nat)
    (hs : hhmmToMinutes s = some a) (he : hhmmToMinutes e = some b) (_hab : a < b) :
    calculateDuration s e = some ((b : ℚ) / 60 - (a : ℚ) / 60) := by
  simp only [calculateDuration, hs, he]
  congr 1
  ring

/-- C9 witness at the spec's concrete examples. -/
theorem claim_C9_duration_exact_witness :
    calculateDuration "10:15" "12:15" = some 2 ∧ calculateDuration "08:00" "10:00" = some 2 := by
  constructor
  · rw [claim_C9_duration_exact "10:15" "12:15" 615 735 rfl rfl (by norm_num)]
    norm_num
  · rw [claim_C9_duration_exact "08:00" "10:00" 480 600 rfl rfl (by norm_num)]
    norm_num

/-- Looking up a day after one population step. -/
theorem alookup_setCell (g : Grid) (r : Schedule) (d : String) :
    alookup (setCell g r) d =
      (alookup g d).map fun row =>
        if d = r.day_of_week then
          row.map fun c => (c.1, if c.1 = r.start_time then some r else c.2)
        else row := by
  induction g with
  | nil => rfl
  | cons e t ih =>
    by_cases hk : e.1 = d
    · subst hk
      simp [setCell, alookup]
    · simp only [setCell, List.map_cons, alookup, hk, if_false]
      exact ih

/-- Looking up a slot in a row after the cell assignment. -/
theorem alookup_rowUpd (row : List (String × Option Schedule)) (r : Schedule) (s : String) :
    alookup (row.map fun c => (c.1, if c.1 = r.start_time then some r else c.2)) s =
      (alookup row s).map fun v => if s = r.start_time then some r else v := by
  induction row with
  | nil => rfl
  | cons c t ih =>
    by_cases hk : c.1 = s
    · subst hk
      simp [alookup]
    · simp only [List.map_cons, alookup, hk, if_false]
      exact ih

/-- Reading a cell after one population step: the cell is overwritten by the
record exactly when the record addresses it. -/
theorem lookupCell_setCell (g : Grid) (r : Schedule) (d s : String) :
    lookupCell (setCell g r) d s =
      (lookupCell g d s).map fun v =>
        if d = r.day_of_week ∧ s = r.start_time then some r else v := by
  unfold lookupCell
  rw [alookup_setCell]
  rcases hg : alookup g d with _ | row
  · rfl
  · simp only [Option.map_some', Option.some_bind]
    by_cases hd : d = r.day_of_week
    · simp only [hd, if_true]
      rw [alookup_rowUpd]
      rcases hr : alookup row s with _ | v
      · rfl
      · by_cases hs : s = r.start_time <;> simp [hd, hs]
    · simp only [hd, if_false]
      rcases hr : alookup row s with _ | v
      · rfl
      · simp [hd]

/-- Population never changes the day keys of the grid. -/
theorem setCell_keys (g : Grid) (r : Schedule) :
    (setCell g r).map Prod.fst = g.map Prod.fst := by
  induction g with
  | nil => rfl
  | cons e t ih => simp only [setCell, List.map_cons] at ih ⊢; rw [ih]

/-- Population never changes the slot keys of any row. -/
theorem setCell_rows (g : Grid) (r : Schedule) (ks : List String)
    (h : ∀ e ∈ g, e.2.map Prod.fst = ks) :
    ∀ e ∈ setCell g r, e.2.map Prod.fst = ks := by
  intro e he
  simp only [setCell, List.mem_map] at he
  obtain ⟨a, ha, rfl⟩ := he
  by_cases hd : a.1 = r.day_of_week
  · simp only [hd, if_true, List.map_map]
    have := h a ha
    rw [← this]
    rfl
  · simpa [hd] using h a ha

/-- The whole population loop never changes the day keys. -/
theorem foldl_setCell_keys (l : List Schedule) :
    ∀ g : Grid, (l.foldl setCell g).map Prod.fst = g.map Prod.fst := by
  induction l with
  | nil => intro g; rfl
  | cons r t ih => intro g; rw [List.foldl_cons, ih (setCell g r), setCell_keys]

/-- The whole population loop never changes any row's slot keys. -/
theorem foldl_setCell_rows (l : List Schedule) :
    ∀ (g : Grid) (ks : List String), (∀ e ∈ g, e.2.map Prod.fst = ks) →
      ∀ e ∈ l.foldl setCell g, e.2.map Prod.fst = ks := by
  induction l with
  | nil => intro g ks h; exact h
  | cons r t ih => intro g ks h; exact ih (setCell g r) ks (setCell_rows g r ks h)

/-- C3: for every input list the grid has exactly the six catalog weekdays
as keys, each row has exactly the four catalog slot starts as keys, and
every cell is empty or holds exactly one record. -/
theorem claim_C3_grid_totality (l : List Schedule) :
    ((formatWeeklyGrid l).map Prod.fst = DAYS_OF_WEEK.map DayEntry.value) ∧
      (∀ e ∈ formatWeeklyGrid l, e.2.map Prod.fst = TIME_SLOTS.map TimeSlot.start_time) ∧
      (∀ e ∈ formatWeeklyGrid l, ∀ c ∈ e.2, c.2 = none ∨ ∃ r : Schedule, c.2 = some r) := by
  refine ⟨?_, ?_, ?_⟩
  · rw [formatWeeklyGrid, foldl_setCell_keys l initGrid]
    decide
  · exact foldl_setCell_rows l initGrid _ (by decide)
  · intro e _ c _
    rcases hc : c.2 with _ | r
    · exact Or.inl rfl
    · exact Or.inr ⟨r, rfl⟩

/-- C3 witness: the theorem applied to the empty input and the Monday row. -/
theorem claim_C3_grid_totality_witness :
    ("MONDAY", TIME_SLOTS.map fun slot => (slot.start_time, (none : Option Schedule))).2.map
        Prod.fst = TIME_SLOTS.map TimeSlot.start_time :=
  (claim_C3_grid_totality []).2.1 _ (by decide)

/-- The populated grid cell holds the last input record addressing it (and
is empty when no record addresses it). -/
theorem gridCell_eq_lastMatch (l : List Schedule) (d s : String)
    (hd : d ∈ DAYS_OF_WEEK.map DayEntry.value) (hs : s ∈ TIME_SLOTS.map TimeSlot.start_time) :
    lookupCell (formatWeeklyGrid l) d s =
      some ((l.filter fun r => decide (r.day_of_week = d ∧ r.start_time = s)).getLast?) := by
  induction l using List.reverseRecOn with
  | nil =>
    fin_cases hd <;> fin_cases hs <;> rfl
  | append_singleton t r ih =>
    have h1 : formatWeeklyGrid (t ++ [r]) = setCell (formatWeeklyGrid t) r := by
      simp [formatWeeklyGrid, List.foldl_append]
    rw [h1, lookupCell_setCell, ih, List.filter_append]
    by_cases hm : (r.day_of_week = d ∧ r.start_time = s)
    · have hmatch : decide (r.day_of_week = d ∧ r.start_time = s) = true := by simp [hm]
      simp only [Option.map_some', List.filter_cons, hmatch, List.filter_nil, if_true]
      rw [if_pos ⟨hm.1.symm, hm.2.symm⟩, List.getLast?_concat]
    · have hmatch : decide (r.day_of_week = d ∧ r.start_time = s) = false := by
        simpa using hm
      have hm2 : ¬ (d = r.day_of_week ∧ s = r.start_time) := by
        intro h
        exact hm ⟨h.1.symm, h.2.symm⟩
      simp only [Option.map_some', List.filter_cons, hmatch, List.filter_nil]
      rw [if_neg hm2]
      simp

/-- C4: a single record lands in exactly the cell addressed by its day and
start time when both match the catalog; every other cell stays empty, and a
record not matching the catalog is silently dropped (all cells empty). -/
theorem claim_C4_single_record_placement (r : Schedule) (d s : String)
    (hd : d ∈ DAYS_OF_WEEK.map DayEntry.value) (hs : s ∈ TIME_SLOTS.map TimeSlot.start_time) :
    lookupCell (formatWeeklyGrid [r]) d s =
      some (if r.day_of_week = d ∧ r.start_time = s then some r else none) := by
  rw [gridCell_eq_lastMatch [r] d s hd hs]
  by_cases hm : (r.day_of_week = d ∧ r.start_time = s) <;> simp [hm]

/-- C4 witness: the Monday 08:00 record fills its cell and leaves another
cell empty; a record with an unrecognized day fills nothing. -/
theorem claim_C4_single_record_placement_witness :
    lookupCell (formatWeeklyGrid [recDupontMon]) "MONDAY" "08:00" = some (some recDupontMon) ∧
      lookupCell (formatWeeklyGrid [recDupontMon]) "TUESDAY" "10:15" = some none := by
  constructor
  · rw [claim_C4_single_record_placement recDupontMon "MONDAY" "08:00" (by decide) (by decide)]
    decide
  · rw [claim_C4_single_record_placement recDupontMon "TUESDAY" "10:15" (by decide) (by decide)]
    decide

/-- C5: when two records address the same catalog cell, the cell holds the
one appearing later in the input list. -/
theorem claim_C5_last_write_wins (a b : Schedule) (d s : String)
    (hd : d ∈ DAYS_OF_WEEK.map DayEntry.value) (hs : s ∈ TIME_SLOTS.map TimeSlot.start_time)
    (had : a.day_of_week = d) (has : a.start_time = s)
    (hbd : b.day_of_week = d) (hbs : b.start_time = s) :
    lookupCell (formatWeeklyGrid [a, b]) d s = some (some b) := by
  rw [gridCell_eq_lastMatch [a, b] d s hd hs]
  simp [List.filter_cons, had, has, hbd, hbs]

/-- C5 witness: two concrete Monday 08:00 records, the later one wins. -/
theorem claim_C5_last_write_wins_witness :
    lookupCell (formatWeeklyGrid [recDupontMon, recMondayBis]) "MONDAY" "08:00" =
      some (some recMondayBis) :=
  claim_C5_last_write_wins recDupontMon recMondayBis "MONDAY" "08:00"
    (by decide) (by decide) rfl rfl rfl rfl

/-- The paired fold of `getScheduleStatistics` projects to two independent
folds (the loop body updates the two maps independently). -/
theorem foldl_pair_proj (l : List Schedule)
    (f g : List (Nat × WorkloadEntry) → Schedule → List (Nat × WorkloadEntry)) :
    ∀ a b : List (Nat × WorkloadEntry),
      l.foldl (fun acc s => (f acc.1 s, g acc.2 s)) (a, b) =
        (l.foldl f a, l.foldl g b) := by
  induction l with
  | nil => intro a b; rfl
  | cons r t ih => intro a b; exact ih (f a r) (g b r)

/-- Membership in the first-appearance key accumulator. -/
theorem mem_distinctKeys_aux (key : Schedule → Nat) (l : List Schedule) :
    ∀ (acc : List Nat) (x : Nat),
      (x ∈ l.foldl (fun acc s => if key s ∈ acc then acc else acc ++ [key s]) acc ↔
        x ∈ acc ∨ x ∈ l.map key) := by
  induction l with
  | nil => intro acc x; simp
  | cons r t ih =>
    intro acc x
    rw [List.foldl_cons, ih]
    by_cases hk : key r ∈ acc
    · by_cases hx : x = key r <;> simp [hk, hx]
    · by_cases hx : x = key r <;> simp [hk, hx]

/-- A key is distinct exactly when it appears in the input. -/
theorem mem_distinctKeys (key : Schedule → Nat) (l : List Schedule) (x : Nat) :
    x ∈ distinctKeys key l ↔ x ∈ l.map key := by
  rw [distinctKeys, mem_distinctKeys_aux]
  simp

/-- Appending one record extends the first-appearance keys at the end. -/
theorem distinctKeys_append (key : Schedule → Nat) (l : List Schedule) (r : Schedule) :
    distinctKeys key (l ++ [r]) =
      if key r ∈ l.map key then distinctKeys key l
      else distinctKeys key l ++ [key r] := by
  rw [distinctKeys, List.foldl_append]
  show (if key r ∈ distinctKeys key l then distinctKeys key l
    else distinctKeys key l ++ [key r]) = _
  by_cases h : key r ∈ l.map key
  · rw [if_pos ((mem_distinctKeys key l (key r)).mpr h), if_pos h]
  · rw [if_neg (fun hc => h ((mem_distinctKeys key l (key r)).mp hc)), if_neg h]

/-- Evaluating `find?` over an append whose left part already finds a witness. -/
theorem find?_append_left {α : Type} (p : α → Bool) (l₁ l₂ : List α)
    (h : (l₁.find? p).isSome) : (l₁ ++ l₂).find? p = l₁.find? p := by
  induction l₁ with
  | nil => simp [List.find?] at h
  | cons a t ih =>
    cases hp : p a
    · have h2 : (t.find? p).isSome := by simpa [List.find?, hp] using h
      simp [List.find?, hp, ih h2]
    · simp [List.find?, hp]

/-- Evaluating `find?` over an append whose left part finds nothing. -/
theorem find?_append_right {α : Type} (p : α → Bool) (l₁ l₂ : List α)
    (h : l₁.find? p = none) : (l₁ ++ l₂).find? p = l₂.find? p := by
  induction l₁ with
  | nil => rfl
  | cons a t ih =>
    cases hp : p a
    · have h2 : t.find? p = none := by simpa [List.find?, hp] using h
      simp [List.find?, hp, ih h2]
    · simp [List.find?, hp] at h

/-- An id appearing among the keys is found by `find?`. -/
theorem find?_isSome_of_mem_keys (key : Schedule → Nat) (l : List Schedule) (id : Nat)
    (h : id ∈ l.map key) : ((l.find? fun s => key s == id).isSome) := by
  rw [List.find?_isSome]
  obtain ⟨s, hs, rfl⟩ := List.mem_map.mp h
  exact ⟨s, hs, by simp⟩

/-- An id not appearing among the keys is not found by `find?`. -/
theorem find?_eq_none_of_not_mem_keys (key : Schedule → Nat) (l : List Schedule) (id : Nat)
    (h : id ∉ l.map key) : (l.find? fun s => key s == id) = none := by
  rw [List.find?_eq_none]
  intro x hx hpx
  exact h (List.mem_map.mpr ⟨x, hx, by simpa using hpx⟩)

/-- The first name of an already-seen id is unchanged by appending. -/
theorem firstNameFor_append_mem (key : Schedule → Nat) (nameOf : Schedule → String)
    (l : List Schedule) (r : Schedule) (id : Nat) (h : id ∈ l.map key) :
    firstNameFor key nameOf (l ++ [r]) id = firstNameFor key nameOf l id := by
  rw [firstNameFor, firstNameFor,
    find?_append_left _ _ _ (find?_isSome_of_mem_keys key l id h)]

/-- The first name of a fresh id is the appended record's name. -/
theorem firstNameFor_append_new (key : Schedule → Nat) (nameOf : Schedule → String)
    (l : List Schedule) (r : Schedule) (h : key r ∉ l.map key) :
    firstNameFor key nameOf (l ++ [r]) (key r) = nameOf r := by
  rw [firstNameFor,
    find?_append_right _ _ _ (find?_eq_none_of_not_mem_keys key l (key r) h)]
  simp [List.find?]

/-- Appending one record adds its duration to exactly its own key's hours. -/
theorem hoursFor_append (key : Schedule → Nat) (l : List Schedule) (r : Schedule) (id : Nat) :
    hoursFor key (l ++ [r]) id =
      if key r = id then qAdd (hoursFor key l id) (durationOf r)
      else hoursFor key l id := by
  rw [hoursFor, List.filter_append]
  by_cases h : key r = id
  · simp [List.filter_cons, h, List.foldl_append, hoursFor]
  · simp [List.filter_cons, h, hoursFor]

/-- An id with no records accumulates exactly the initial `0`. -/
theorem hoursFor_eq_zero (key : Schedule → Nat) (l : List Schedule) (id : Nat)
    (h : id ∉ l.map key) : hoursFor key l id = some 0 := by
  rw [hoursFor]
  have hf : l.filter (fun s => key s == id) = [] := by
    rw [List.filter_eq_nil_iff]
    intro a ha hpa
    exact h (List.mem_map.mpr ⟨a, ha, by simpa using hpa⟩)
  rw [hf]
  rfl

/-- The keys of the spec-side map are the distinct keys. -/
theorem specMap_keys (key : Schedule → Nat) (nameOf : Schedule → String) (l : List Schedule) :
    (specMap key nameOf l).map Prod.fst = distinctKeys key l := by
  rw [specMap, List.map_map]
  exact List.map_id _

/-- The map update `updEntry` written out (zeta-reduced). -/
theorem updEntry_eq (key : Schedule → Nat) (nameOf : Schedule → String)
    (m : List (Nat × WorkloadEntry)) (r : Schedule) :
    updEntry key nameOf m r =
      (if key r ∈ m.map Prod.fst then m else m ++ [(key r, ⟨nameOf r, some 0⟩)]).map
        fun e => if e.1 = key r then (e.1, ⟨e.2.name, qAdd e.2.hours (durationOf r)⟩)
          else e := rfl

/-- The first component of a spec-side entry is its key. -/
theorem entryFor_fst (key : Schedule → Nat) (nameOf : Schedule → String)
    (l : List Schedule) (id : Nat) : (entryFor key nameOf l id).1 = id := rfl

/-- The name of a spec-side entry. -/
theorem entryFor_name (key : Schedule → Nat) (nameOf : Schedule → String)
    (l : List Schedule) (id : Nat) :
    (entryFor key nameOf l id).2.name = firstNameFor key nameOf l id := rfl

/-- The hours of a spec-side entry. -/
theorem entryFor_hours (key : Schedule → Nat) (nameOf : Schedule → String)
    (l : List Schedule) (id : Nat) :
    (entryFor key nameOf l id).2.hours = hoursFor key l id := rfl

/-- The aggregation fold computes exactly the spec-side keyed map: one entry
per distinct key in insertion (first-encounter) order, the name of the first
record encountered, and the summed hours. -/
theorem foldl_updEntry_eq (key : Schedule → Nat) (nameOf : Schedule → String)
    (l : List Schedule) :
    l.foldl (updEntry key nameOf) [] = specMap key nameOf l := by
  induction l using List.reverseRecOn with
  | nil => rfl
  | append_singleton t r ih =>
    rw [List.foldl_append, List.foldl_cons, List.foldl_nil, ih, updEntry_eq]
    by_cases h : key r ∈ t.map key
    · have hmem : key r ∈ (specMap key nameOf t).map Prod.fst := by
        rw [specMap_keys]
        exact (mem_distinctKeys key t (key r)).mpr h
      rw [if_pos hmem, specMap, specMap, distinctKeys_append, if_pos h, List.map_map]
      refine List.map_congr_left ?_
      intro id hid
      have hid' : id ∈ t.map key := (mem_distinctKeys key t id).mp hid
      show (if (entryFor key nameOf t id).1 = key r
        then ((entryFor key nameOf t id).1,
          (⟨(entryFor key nameOf t id).2.name,
            qAdd (entryFor key nameOf t id).2.hours (durationOf r)⟩ : WorkloadEntry))
        else entryFor key nameOf t id) = entryFor key nameOf (t ++ [r]) id
      simp only [entryFor_fst, entryFor_name, entryFor_hours]
      by_cases hkr : id = key r
      · rw [if_pos hkr, entryFor, firstNameFor_append_mem key nameOf t r id hid',
          hoursFor_append key t r id, if_pos hkr.symm]
      · rw [if_neg hkr, entryFor, entryFor,
          firstNameFor_append_mem key nameOf t r id hid',
          hoursFor_append key t r id, if_neg (fun hh => hkr hh.symm)]
    · have hmem : key r ∉ (specMap key nameOf t).map Prod.fst := by
        rw [specMap_keys]
        exact fun hc => h ((mem_distinctKeys key t (key r)).mp hc)
      rw [if_neg hmem, List.map_append, specMap, specMap, distinctKeys_append, if_neg h,
        List.map_append]
      congr 1
      · rw [List.map_map]
        refine List.map_congr_left ?_
        intro id hid
        have hid' : id ∈ t.map key := (mem_distinctKeys key t id).mp hid
        have hkr : id ≠ key r := fun hc => h (hc ▸ hid')
        show (if (entryFor key nameOf t id).1 = key r
          then ((entryFor key nameOf t id).1,
            (⟨(entryFor key nameOf t id).2.name,
              qAdd (entryFor key nameOf t id).2.hours (durationOf r)⟩ : WorkloadEntry))
          else entryFor key nameOf t id) = entryFor key nameOf (t ++ [r]) id
        simp only [entryFor_fst, entryFor_name, entryFor_hours]
        rw [if_neg hkr, entryFor, entryFor,
          firstNameFor_append_mem key nameOf t r id hid',
          hoursFor_append key t r id, if_neg (fun hh => hkr hh.symm)]
      · show [if key r = key r then
            (key r, (⟨nameOf r, qAdd (some 0) (durationOf r)⟩ : WorkloadEntry))
          else (key r, (⟨nameOf r, some 0⟩ : WorkloadEntry))] = _
        rw [if_pos rfl, List.map_singleton, entryFor,
          firstNameFor_append_new key nameOf t r h,
          hoursFor_append key t r (key r), if_pos rfl, hoursFor_eq_zero key t (key r) h]

/-- The teacher map of the statistics is the spec-side teacher map. -/
theorem getStats_teacher_workload (l : List Schedule) :
    (getScheduleStatistics l).teacher_workload =
      objectValues (specMap (fun r => r.teacher_id) (fun r => r.teacher_name) l) := by
  show objectValues
    (l.foldl (fun acc s =>
      (updEntry (fun r => r.teacher_id) (fun r => r.teacher_name) acc.1 s,
       updEntry (fun r => r.class_id) (fun r => r.class_name) acc.2 s)) ([], [])).1 = _
  rw [foldl_pair_proj]
  rw [show (l.foldl (updEntry (fun r => r.teacher_id) (fun r => r.teacher_name)) [],
      l.foldl (updEntry (fun r => r.class_id) (fun r => r.class_name)) []).1 =
    l.foldl (updEntry (fun r => r.teacher_id) (fun r => r.teacher_name)) [] from rfl]
  rw [foldl_updEntry_eq]

/-- The class map of the statistics is the spec-side class map. -/
theorem getStats_class_coverage (l : List Schedule) :
    (getScheduleStatistics l).class_coverage =
      objectValues (specMap (fun r => r.class_id) (fun r => r.class_name) l) := by
  show objectValues
    (l.foldl (fun acc s =>
      (updEntry (fun r => r.teacher_id) (fun r => r.teacher_name) acc.1 s,
       updEntry (fun r => r.class_id) (fun r => r.class_name) acc.2 s)) ([], [])).2 = _
  rw [foldl_pair_proj]
  rw [show (l.foldl (updEntry (fun r => r.teacher_id) (fun r => r.teacher_name)) [],
      l.foldl (updEntry (fun r => r.class_id) (fun r => r.class_name)) []).2 =
    l.foldl (updEntry (fun r => r.class_id) (fun r => r.class_name)) [] from rfl]
  rw [foldl_updEntry_eq]

/-- Enumerated values are a permutation of the map's values. -/
theorem objectValues_perm (m : List (Nat × WorkloadEntry)) :
    (objectValues m).Perm (m.map Prod.snd) :=
  List.Perm.map Prod.snd (List.perm_insertionSort _ m)

/-- Inserting through a key-tagging map commutes with inserting the key. -/
theorem orderedInsert_map_fst (g : Nat → Nat × WorkloadEntry) (hg : ∀ i, (g i).1 = i)
    (a : Nat) (l : List Nat) :
    (List.orderedInsert (fun x y => x ≤ y) a l).map g =
      List.orderedInsert (fun x y : Nat × WorkloadEntry => x.1 ≤ y.1) (g a) (l.map g) := by
  induction l with
  | nil => rfl
  | cons b t ih =>
    simp only [List.orderedInsert, List.map_cons]
    by_cases hab : a ≤ b
    · rw [if_pos hab, if_pos (show (g a).1 ≤ (g b).1 by rw [hg a, hg b]; exact hab)]
      rfl
    · rw [if_neg hab, if_neg (show ¬ (g a).1 ≤ (g b).1 by rw [hg a, hg b]; exact hab)]
      rw [List.map_cons, ih]

/-- Sorting through a key-tagging map commutes with sorting the keys. -/
theorem insertionSort_map_fst (g : Nat → Nat × WorkloadEntry) (hg : ∀ i, (g i).1 = i)
    (l : List Nat) :
    (List.insertionSort (fun x y => x ≤ y) l).map g =
      List.insertionSort (fun x y : Nat × WorkloadEntry => x.1 ≤ y.1) (l.map g) := by
  induction l with
  | nil => rfl
  | cons b t ih =>
    simp only [List.insertionSort, List.map_cons]
    rw [orderedInsert_map_fst g hg, ih]

/-- Enumerating the spec-side map: the distinct keys sorted
ascending, then turned into entries. -/
theorem objectValues_specMap (key : Schedule → Nat) (nameOf : Schedule → String)
    (l : List Schedule) :
    objectValues (specMap key nameOf l) =
      (List.insertionSort (fun x y => x ≤ y) (distinctKeys key l)).map fun id =>
        (⟨firstNameFor key nameOf l id, hoursFor key l id⟩ : WorkloadEntry) := by
  rw [objectValues, specMap, ← insertionSort_map_fst (entryFor key nameOf l) (fun i => rfl),
    List.map_map]
  rfl

/-- C1: the statistics carry one workload entry per distinct teacher id
(resp. class id) of the input, named after the first record encountered for
that id, with hours the sum of that id's record durations; concretely, two
records for teacher 7 "Dupont" of 2.0 h and 1.0 h yield exactly the one
entry named "Dupont" with 3.0 hours. -/
theorem claim_C1_workload_aggregation (l : List Schedule) :
    ((getScheduleStatistics l).teacher_workload).Perm
        ((distinctKeys (fun r => r.teacher_id) l).map fun id =>
          (⟨firstNameFor (fun r => r.teacher_id) (fun r => r.teacher_name) l id,
            hoursFor (fun r => r.teacher_id) l id⟩ : WorkloadEntry)) ∧
      ((getScheduleStatistics l).class_coverage).Perm
        ((distinctKeys (fun r => r.class_id) l).map fun id =>
          (⟨firstNameFor (fun r => r.class_id) (fun r => r.class_name) l id,
            hoursFor (fun r => r.class_id) l id⟩ : WorkloadEntry)) ∧
      (getScheduleStatistics [recDupontMon, recDupontTue]).teacher_workload =
        [⟨"Dupont", some 3⟩] := by
  refine ⟨?_, ?_, ?_⟩
  · rw [getStats_teacher_workload, objectValues_specMap]
    exact List.Perm.map _ (List.perm_insertionSort _ _)
  · rw [getStats_class_coverage, objectValues_specMap]
    exact List.Perm.map _ (List.perm_insertionSort _ _)
  · have h1 : (getScheduleStatistics [recDupontMon, recDupontTue]).teacher_workload =
        [⟨"Dupont", hoursFor (fun r => r.teacher_id) [recDupontMon, recDupontTue] 7⟩] := by
      rw [getStats_teacher_workload]
      rfl
    have h2 : hoursFor (fun r => r.teacher_id) [recDupontMon, recDupontTue] 7
        = qAdd (qAdd (some 0) (some ((((600 : Nat) : ℚ) - ((480 : Nat) : ℚ)) / 60)))
            (some ((((675 : Nat) : ℚ) - ((615 : Nat) : ℚ)) / 60)) := rfl
    rw [h1, h2]
    simp [qAdd]
    norm_num

/-- C2 counterexample: with teacher id 9 appearing before teacher id 2 in
the input, the emitted workload list is NOT in first-appearance order: the
code enumerates the numeric object keys in ascending order. -/
theorem claim_C2_first_appearance_counterexample :
    (getScheduleStatistics [recTeacherNine, recTeacherTwo]).teacher_workload ≠
      (distinctKeys (fun r => r.teacher_id) [recTeacherNine, recTeacherTwo]).map
        (fun id => (⟨firstNameFor (fun r => r.teacher_id) (fun r => r.teacher_name)
            [recTeacherNine, recTeacherTwo] id,
          hoursFor (fun r => r.teacher_id) [recTeacherNine, recTeacherTwo] id⟩ :
            WorkloadEntry)) := by
  intro h
  have hn := congrArg (List.map WorkloadEntry.name) h
  have h1 : (getScheduleStatistics [recTeacherNine, recTeacherTwo]).teacher_workload.map
      WorkloadEntry.name = ["Deux", "Neuf"] := rfl
  have h2 : ((distinctKeys (fun r => r.teacher_id) [recTeacherNine, recTeacherTwo]).map
      (fun id => (⟨firstNameFor (fun r => r.teacher_id) (fun r => r.teacher_name)
          [recTeacherNine, recTeacherTwo] id,
        hoursFor (fun r => r.teacher_id) [recTeacherNine, recTeacherTwo] id⟩ :
          WorkloadEntry))).map WorkloadEntry.name = ["Neuf", "Deux"] := rfl
  rw [h1, h2] at hn
  exact absurd hn (by decide)

/-- C2 amended: the workload lists enumerate the distinct ids in ascending
numeric id order (JS objects enumerate integer-like keys ascending), not in
first-appearance order. -/
theorem claim_C2_ascending_id_order (l : List Schedule) :
    ((getScheduleStatistics l).teacher_workload =
      (List.insertionSort (fun x y => x ≤ y) (distinctKeys (fun r => r.teacher_id) l)).map
        fun id => (⟨firstNameFor (fun r => r.teacher_id) (fun r => r.teacher_name) l id,
          hoursFor (fun r => r.teacher_id) l id⟩ : WorkloadEntry)) ∧
      ((getScheduleStatistics l).class_coverage =
        (List.insertionSort (fun x y => x ≤ y) (distinctKeys (fun r => r.class_id) l)).map
          fun id => (⟨firstNameFor (fun r => r.class_id) (fun r => r.class_name) l id,
            hoursFor (fun r => r.class_id) l id⟩ : WorkloadEntry)) :=
  ⟨by rw [getStats_teacher_workload, objectValues_specMap],
    by rw [getStats_class_coverage, objectValues_specMap]⟩
